import Mathlib

/-!
Verification of the ComfyUI Go client (`client.go`): a shallow embedding of
the request-construction and response-decoding pipeline, together with
theorems settling the specification's claims about it.

Modelling conventions:
* Go byte slices and strings are Lean `String`s (sequences of characters).
* `json.RawMessage` values are kept as the raw text (`String`); the JSON
  structure they denote is recovered with `parseJson` below, which models
  the syntax check Go's `encoding/json` performs when it compacts a raw
  message during `Marshal`/`Encode`.
* Serialized JSON bodies are modelled as `Json` trees rather than byte
  strings: Go writes the tree in compact form, so the tree determines the
  bytes and all structural claims can be stated on trees.
* Machine integers (HTTP status codes, byte counts) are `Nat`.
-/

namespace ComfyUI

/-- A JSON value. Object members keep their textual order; numbers keep the
exact numeric literal (Go's compaction of a `json.RawMessage` preserves the
literal and only removes insignificant whitespace). -/
inductive Json where
  | null
  | bool (b : Bool)
  | num (lit : String)
  | str (s : String)
  | arr (elems : List Json)
  | obj (fields : List (String × Json))
deriving Repr, Inhabited

/-- The opening-brace character, written via its code point. -/
def braceL : Char := Char.ofNat 123

/-- The closing-brace character, written via its code point. -/
def braceR : Char := Char.ofNat 125

def isJsonWs (c : Char) : Bool :=
  c = ' ' || c = '\t' || c = '\n' || c = '\r'

def dropWs : List Char → List Char
  | [] => []
  | c :: cs => if isJsonWs c then dropWs cs else c :: cs

def isDigitCh (c : Char) : Bool := '0' ≤ c && c ≤ '9'

def isHexCh (c : Char) : Bool :=
  isDigitCh c || ('a' ≤ c && c ≤ 'f') || ('A' ≤ c && c ≤ 'F')

def spanDigits : List Char → List Char × List Char
  | [] => ([], [])
  | c :: cs =>
    if isDigitCh c then
      let (ds, r) := spanDigits cs
      (c :: ds, r)
    else ([], c :: cs)

/-- Parse the body of a JSON string after the opening quote, returning the
decoded characters and the remaining input after the closing quote.
Escape handling follows `encoding/json`: the short escapes and `\uXXXX`. -/
def scanStringBody : Nat → List Char → Option (List Char × List Char)
  | 0, _ => none
  | _ + 1, [] => none
  | fuel + 1, c :: cs =>
    if c = '"' then
      some ([], cs)
    else if c = '\\' then
      match cs with
      | [] => none
      | e :: cs2 =>
        let cont (decoded : Char) (rest : List Char) :
            Option (List Char × List Char) :=
          match scanStringBody fuel rest with
          | some (tl, r) => some (decoded :: tl, r)
          | none => none
        if e = '"' then cont '"' cs2
        else if e = '\\' then cont '\\' cs2
        else if e = '/' then cont '/' cs2
        else if e = 'b' then cont (Char.ofNat 8) cs2
        else if e = 'f' then cont (Char.ofNat 12) cs2
        else if e = 'n' then cont '\n' cs2
        else if e = 'r' then cont '\r' cs2
        else if e = 't' then cont '\t' cs2
        else if e = 'u' then
          match cs2 with
          | h1 :: h2 :: h3 :: h4 :: cs3 =>
            if isHexCh h1 && isHexCh h2 && isHexCh h3 && isHexCh h4 then
              let hv (c : Char) : Nat :=
                if isDigitCh c then c.toNat - '0'.toNat
                else if 'a' ≤ c && c ≤ 'f' then c.toNat - 'a'.toNat + 10
                else c.toNat - 'A'.toNat + 10
              cont (Char.ofNat (((hv h1 * 16 + hv h2) * 16 + hv h3) * 16 + hv h4)) cs3
            else none
          | _ => none
        else none
    else if c.toNat < 32 then
      none
    else
      match scanStringBody fuel cs with
      | some (tl, r) => some (c :: tl, r)
      | none => none

/-- Parse a JSON numeric literal, returning the literal text and the rest.
Grammar as in RFC 8259 (and Go's scanner): optional minus, an integer part
with no leading zero, optional fraction, optional exponent. -/
def scanNumberLit (cs : List Char) : Option (List Char × List Char) :=
  let (sign, cs1) :=
    match cs with
    | '-' :: r => (['-'], r)
    | r => (([] : List Char), r)
  match cs1 with
  | [] => none
  | c :: r =>
    if c = '0' then
      some (sign ++ ['0'], r)
    else if isDigitCh c then
      let (ds, r2) := spanDigits r
      some (sign ++ c :: ds, r2)
    else none

def scanFrac (cs : List Char) : Option (List Char × List Char) :=
  match cs with
  | '.' :: r =>
    match spanDigits r with
    | ([], _) => none
    | (ds, r2) => some ('.' :: ds, r2)
  | r => some ([], r)

def scanExp (cs : List Char) : Option (List Char × List Char) :=
  match cs with
  | c :: r =>
    if c = 'e' || c = 'E' then
      let (sgn, r1) :=
        match r with
        | '+' :: r2 => (['+'], r2)
        | '-' :: r2 => (['-'], r2)
        | r2 => (([] : List Char), r2)
      match spanDigits r1 with
      | ([], _) => none
      | (ds, r2) => some (c :: sgn ++ ds, r2)
    else some ([], c :: r)
  | [] => some ([], [])

def startsWithChars : List Char → List Char → Option (List Char)
  | [], rest => some rest
  | p :: ps, c :: cs => if c = p then startsWithChars ps cs else none
  | _ :: _, [] => none

mutual

/-- Parse one JSON value (leading whitespace allowed), returning the value and
the unread remainder. `fuel` only bounds recursion; any fuel of at least the
input length plus two suffices on inputs the program feeds it. -/
def parseValue : Nat → List Char → Option (Json × List Char)
  | 0, _ => none
  | fuel + 1, cs =>
    match dropWs cs with
    | [] => none
    | c :: rest =>
      if c = 'n' then
        match startsWithChars ['u', 'l', 'l'] rest with
        | some r => some (.null, r)
        | none => none
      else if c = 't' then
        match startsWithChars ['r', 'u', 'e'] rest with
        | some r => some (.bool true, r)
        | none => none
      else if c = 'f' then
        match startsWithChars ['a', 'l', 's', 'e'] rest with
        | some r => some (.bool false, r)
        | none => none
      else if c = '"' then
        match scanStringBody fuel rest with
        | some (body, r) => some (.str (String.mk body), r)
        | none => none
      else if c = '[' then
        match dropWs rest with
        | ']' :: r => some (.arr [], r)
        | r2 => match parseArrayItems fuel r2 with
          | some (items, r) => some (.arr items, r)
          | none => none
      else if c = braceL then
        match dropWs rest with
        | c2 :: r =>
          if c2 = braceR then some (.obj [], r)
          else match parseObjMembers fuel (c2 :: r) with
            | some (fields, r2) => some (.obj fields, r2)
            | none => none
        | [] => none
      else
        match scanNumberLit (c :: rest) with
        | some (intPart, r1) =>
          match scanFrac r1 with
          | some (fracPart, r2) =>
            match scanExp r2 with
            | some (expPart, r3) =>
              some (.num (String.mk (intPart ++ fracPart ++ expPart)), r3)
            | none => none
          | none => none
        | none => none

/-- Parse one or more comma-separated array items up to the closing bracket. -/
def parseArrayItems : Nat → List Char → Option (List Json × List Char)
  | 0, _ => none
  | fuel + 1, cs =>
    match parseValue fuel cs with
    | none => none
    | some (v, r) =>
      match dropWs r with
      | ',' :: r2 =>
        match parseArrayItems fuel r2 with
        | some (vs, r3) => some (v :: vs, r3)
        | none => none
      | ']' :: r2 => some ([v], r2)
      | _ => none

/-- Parse one or more comma-separated object members up to the closing brace. -/
def parseObjMembers : Nat → List Char → Option (List (String × Json) × List Char)
  | 0, _ => none
  | fuel + 1, cs =>
    match dropWs cs with
    | '"' :: r =>
      match scanStringBody fuel r with
      | none => none
      | some (key, r1) =>
        match dropWs r1 with
        | ':' :: r2 =>
          match parseValue fuel r2 with
          | none => none
          | some (v, r3) =>
            match dropWs r3 with
            | ',' :: r4 =>
              match parseObjMembers fuel r4 with
              | some (fs, r5) => some ((String.mk key, v) :: fs, r5)
              | none => none
            | c :: r4 =>
              if c = braceR then some ([(String.mk key, v)], r4) else none
            | [] => none
        | _ => none
    | _ => none

end

/-- Parse one JSON value from the front of `s`, returning it together with the
number of characters consumed (leading whitespace included). This models how
far `json.Decoder.Decode` reads into a stream: it stops once the first value
is complete (Go may buffer a bounded amount further; the claims below only
use inputs where the distinction is irrelevant). -/
def parseOneValue (s : String) : Option (Json × Nat) :=
  let cs := s.toList
  match parseValue (cs.length + 2) cs with
  | some (j, rest) => some (j, cs.length - rest.length)
  | none => none

/-- Validity-checking parse of a whole raw message: one JSON value with only
whitespace around it, exactly the syntax `encoding/json` accepts when it
compacts a `json.RawMessage` into the output of `Marshal`/`Encode`. -/
def parseJson (s : String) : Option Json :=
  let cs := s.toList
  match parseValue (cs.length + 2) cs with
  | some (j, rest) => if dropWs rest = [] then some j else none
  | none => none

/-! ### Data model (from `client.go`) -/

/-- `HandlerType` is a Go string type; modelled as `String`. -/
def HandlerRawWorkflow : String := "RawWorkflow"

/-- `Webhook` from the source. `params` models the Go `map[string]any`
(`extra_params,omitempty`): a finite map, here an association list whose
values are the JSON trees the `any` values marshal to. -/
structure Webhook where
  url : String
  params : List (String × Json)
deriving Repr

/-- `Input` from the source. `gcp` and `modifiers` model the `*struct{}`
pointers: the only information a `*struct{}` carries is whether it is nil,
so presence is a `Bool`. `workflow` is the raw bytes of the
`json.RawMessage` field `workflow_json`. -/
structure Input where
  requestID : String
  handler : String
  gcp : Bool
  modifiers : Bool
  workflow : String
  webhook : Option Webhook
deriving Repr

/-- `StartWorkflowRequest` from the source: the submit payload, wrapping the
input under the JSON key `input`. -/
structure StartWorkflowRequest where
  input : Input
deriving Repr

/-- `OutputItem` from the source with its embedded `OutputURLs` flattened,
exactly as Go's marshaller flattens an embedded struct. -/
structure OutputItem where
  localPath : String
  gcp : String
  s3 : String
  url : String
deriving Repr

/-- `Status` from the source. `comfyuiResponse` is the `json.RawMessage`
field, abstracted (as everywhere in this file) by the JSON tree its bytes
denote; `Json.null` is its zero value. Entries of `output` are `Option`
because the Go slice holds pointers, and JSON `null` decodes to a nil
pointer. -/
structure Status where
  id : String
  message : String
  status : String
  comfyuiResponse : Json
  output : List (Option OutputItem)
deriving Repr

/-- The zero `Status` value that `do` allocates with `new(Status)`. -/
def zeroStatus : Status := ⟨"", "", "", .null, []⟩

/-- `Client` from the source: base URL and optional bearer token. The
optional injected `*http.Client` is modelled by passing the transport as an
explicit function argument to the operations. -/
structure Client where
  baseURL : String
  apiToken : String
deriving Repr

/-! ### JSON encoding (models `encoding/json` marshalling of the model) -/

/-- Lexicographic order on character lists by code point, the
order Go sorts map keys in (bytewise; identical on the ASCII keys the
program uses). -/
def charListLe : List Char → List Char → Bool
  | [], _ => true
  | _ :: _, [] => false
  | a :: as, b :: bs =>
    if a.toNat = b.toNat then charListLe as bs
    else Nat.blt a.toNat b.toNat

def keyLe (a b : String) : Bool := charListLe a.toList b.toList

/-- Insert a member into a key-sorted member list (ascending key order). -/
def insertByKey (p : String × Json) : List (String × Json) → List (String × Json)
  | [] => [p]
  | q :: qs => if keyLe p.1 q.1 then p :: q :: qs else q :: insertByKey p qs

/-- Sort object members by key, as Go does when marshalling a map. -/
def sortByKey (ps : List (String × Json)) : List (String × Json) :=
  ps.foldr insertByKey []

/-- Marshal a `Webhook`: `url` always, `extra_params` unless the map is
empty (`omitempty`), with map keys sorted as Go sorts them. -/
def encodeWebhook (w : Webhook) : Json :=
  .obj ([("url", .str w.url)] ++
    (if w.params.isEmpty then [] else [("extra_params", .obj (sortByKey w.params))]))

/-- Marshal an `Input`, field for field in declaration order with the
source's tags: `request_id,omitempty`, `handler`, `gcp,omitempty`,
`modifiers,omitempty`, `workflow_json` (raw message: fails unless the raw
bytes are valid JSON, which is the syntax check Go's compaction performs),
`webhook,omitempty`. -/
def encodeInput (i : Input) : Except String Json :=
  match parseJson i.workflow with
  | none => .error "json: invalid workflow_json raw message"
  | some w =>
    .ok (.obj (
      (if i.requestID = "" then [] else [("request_id", .str i.requestID)]) ++
      [("handler", .str i.handler)] ++
      (if i.gcp then [("gcp", .obj [])] else []) ++
      (if i.modifiers then [("modifiers", .obj [])] else []) ++
      [("workflow_json", w)] ++
      (match i.webhook with
       | none => []
       | some wh => [("webhook", encodeWebhook wh)])))

/-- Marshal a `StartWorkflowRequest`: a single-member object `input`. -/
def encodeStartWorkflowRequest (r : StartWorkflowRequest) : Except String Json :=
  (encodeInput r.input).map (fun j => .obj [("input", j)])

/-- The member names of a JSON object (empty for non-objects). -/
def topKeys : Json → List String
  | .obj fields => fields.map Prod.fst
  | _ => []

/-- Look up a member of a member list by exact name, first match. -/
def memberLookup (fields : List (String × Json)) (k : String) : Option Json :=
  match fields with
  | [] => none
  | (k2, v) :: rest => if k2 = k then some v else memberLookup rest k

/-! ### JSON decoding (models `encoding/json` unmarshalling)

Decoded `json.RawMessage` fields hold the raw bytes of the sub-value; under
the bytes-as-trees abstraction used throughout this file they are the JSON
subtree itself, so the decoded views below carry `Json` where the Go struct
carries `json.RawMessage`. Unknown object members are ignored and `null`
leaves a field at its current value, as in Go. -/

/-- The decoded image of a `Webhook` (`url` string, `extra_params` map). -/
structure WebhookView where
  url : String
  params : List (String × Json)
deriving Repr

/-- The decoded image of an `Input` (workflow as its JSON structure). -/
structure InputView where
  requestID : String
  handler : String
  gcp : Bool
  modifiers : Bool
  workflow : Json
  webhook : Option WebhookView
deriving Repr

/-- The decoded image of a `StartWorkflowRequest`. -/
structure StartWorkflowRequestView where
  input : InputView
deriving Repr

/-- Store a key in a map being built: overwrite an existing entry (later
duplicate keys win in Go) or append. -/
def mapPut (acc : List (String × Json)) (p : String × Json) : List (String × Json) :=
  match acc with
  | [] => [p]
  | q :: qs => if q.1 = p.1 then p :: qs else q :: mapPut qs p

/-- Unmarshal a JSON value into a `map[string]any`. -/
def decodeParamsMap (j : Json) : Option (List (String × Json)) :=
  match j with
  | .null => some []
  | .obj fields => some (fields.foldl mapPut [])
  | _ => none

/-- Unmarshal into a `*Webhook` field: `null` gives a nil pointer. -/
def decodeWebhookField (j : Json) : Option (Option WebhookView) :=
  match j with
  | .null => some none
  | .obj fields =>
    let step (acc : Option WebhookView) (p : String × Json) : Option WebhookView :=
      match acc with
      | none => none
      | some d =>
        if p.1 = "url" then
          match p.2 with
          | .str s => some { d with url := s }
          | .null => some d
          | _ => none
        else if p.1 = "extra_params" then
          match decodeParamsMap p.2 with
          | some m => some { d with params := m }
          | none => none
        else some d
    (fields.foldl step (some ⟨"", []⟩)).map some
  | _ => none

/-- Unmarshal one object member into an `Input` draft. -/
def decodeInputMember (d : InputView) (p : String × Json) : Option InputView :=
  if p.1 = "request_id" then
    match p.2 with
    | .str s => some { d with requestID := s }
    | .null => some d
    | _ => none
  else if p.1 = "handler" then
    match p.2 with
    | .str s => some { d with handler := s }
    | .null => some d
    | _ => none
  else if p.1 = "gcp" then
    match p.2 with
    | .null => some { d with gcp := false }
    | .obj _ => some { d with gcp := true }
    | _ => none
  else if p.1 = "modifiers" then
    match p.2 with
    | .null => some { d with modifiers := false }
    | .obj _ => some { d with modifiers := true }
    | _ => none
  else if p.1 = "workflow_json" then
    some { d with workflow := p.2 }
  else if p.1 = "webhook" then
    match decodeWebhookField p.2 with
    | some wh => some { d with webhook := wh }
    | none => none
  else some d

/-- The zero `InputView`: Go's zero `Input` (nil raw message rendered as the
zero tree `Json.null`). -/
def zeroInputView : InputView := ⟨"", "", false, false, .null, none⟩

/-- Unmarshal into an `Input`. -/
def decodeInput (j : Json) : Option InputView :=
  match j with
  | .null => some zeroInputView
  | .obj fields =>
    fields.foldl
      (fun acc p => match acc with
        | none => none
        | some d => decodeInputMember d p)
      (some zeroInputView)
  | _ => none

/-- Unmarshal into a `StartWorkflowRequest`. -/
def decodeStartWorkflowRequest (j : Json) : Option StartWorkflowRequestView :=
  match j with
  | .null => some ⟨zeroInputView⟩
  | .obj fields =>
    fields.foldl
      (fun acc p => match acc with
        | none => none
        | some d =>
          if p.1 = "input" then
            match decodeInput p.2 with
            | some iv => some ⟨iv⟩
            | none => none
          else some d)
      (some ⟨zeroInputView⟩)
  | _ => none

/-- Unmarshal one object member into an `OutputItem` draft (embedded
`OutputURLs` fields are flattened, as Go flattens them). -/
def decodeOutputMember (d : OutputItem) (p : String × Json) : Option OutputItem :=
  let strField (set : String → OutputItem) : Option OutputItem :=
    match p.2 with
    | .str s => some (set s)
    | .null => some d
    | _ => none
  if p.1 = "local_path" then strField (fun s => { d with localPath := s })
  else if p.1 = "gcp_url" then strField (fun s => { d with gcp := s })
  else if p.1 = "s3_url" then strField (fun s => { d with s3 := s })
  else if p.1 = "url" then strField (fun s => { d with url := s })
  else some d

/-- Unmarshal into a `*OutputItem` slice entry: `null` gives a nil pointer. -/
def decodeOutputEntry (j : Json) : Option (Option OutputItem) :=
  match j with
  | .null => some none
  | .obj fields =>
    (fields.foldl
      (fun acc p => match acc with
        | none => none
        | some d => decodeOutputMember d p)
      (some ⟨"", "", "", ""⟩)).map some
  | _ => none

def decodeOutputList (l : List Json) : Option (List (Option OutputItem)) :=
  match l with
  | [] => some []
  | j :: rest =>
    match decodeOutputEntry j, decodeOutputList rest with
    | some e, some es => some (e :: es)
    | _, _ => none

/-- Unmarshal one object member into a `Status` draft. -/
def decodeStatusMember (d : Status) (p : String × Json) : Option Status :=
  if p.1 = "id" then
    match p.2 with
    | .str s => some { d with id := s }
    | .null => some d
    | _ => none
  else if p.1 = "message" then
    match p.2 with
    | .str s => some { d with message := s }
    | .null => some d
    | _ => none
  else if p.1 = "status" then
    match p.2 with
    | .str s => some { d with status := s }
    | .null => some d
    | _ => none
  else if p.1 = "comfyui_response" then
    some { d with comfyuiResponse := p.2 }
  else if p.1 = "output" then
    match p.2 with
    | .null => some { d with output := [] }
    | .arr l =>
      match decodeOutputList l with
      | some es => some { d with output := es }
      | none => none
    | _ => none
  else some d

/-- Unmarshal into a `Status` — the destination type of both operations.
The `status` member is an open string: any string value is accepted. -/
def decodeStatus (j : Json) : Option Status :=
  match j with
  | .null => some zeroStatus
  | .obj fields =>
    fields.foldl
      (fun acc p => match acc with
        | none => none
        | some d => decodeStatusMember d p)
      (some zeroStatus)
  | _ => none

/-! ### URL path joining (models `net/url.JoinPath`)

`withPath` calls `url.JoinPath(base, segments...)`, which parses the base
URL (the only error source), joins the segments onto its path with
`path.Join` — collapsing repeated slashes and resolving `.`/`..` — and
re-renders the URL. The model below covers the URLs this client deals
with: an optional `scheme://host` front followed by a plain path, with
Go's control-character and host-character checks; userinfo, query,
fragment and percent-escaping are outside the modelled fragment. -/

def containsCtl (s : String) : Bool :=
  s.toList.any (fun c => c.toNat < 32 || c.toNat = 127)

def isAlphaCh (c : Char) : Bool :=
  ('a' ≤ c && c ≤ 'z') || ('A' ≤ c && c ≤ 'Z')

def isSchemeCh (c : Char) : Bool :=
  isAlphaCh c || isDigitCh c || c = '+' || c = '-' || c = '.'

/-- Split at the first `://`, returning the text before and after it. -/
def findSchemeSep : List Char → Option (List Char × List Char)
  | [] => none
  | ':' :: '/' :: '/' :: rest => some ([], rest)
  | c :: cs =>
    match findSchemeSep cs with
    | some (b, a) => some (c :: b, a)
    | none => none

/-- Split an authority from the path that follows it. -/
def splitAuthority : List Char → List Char × List Char
  | [] => ([], [])
  | '/' :: cs => ([], '/' :: cs)
  | c :: cs =>
    let (a, p) := splitAuthority cs
    (c :: a, p)

/-- Split a base URL into its `scheme://host` front and its path, with the
checks `url.Parse` performs on them. -/
def splitBaseURL (base : String) : Except String (String × String) :=
  match findSchemeSep base.toList with
  | none => .ok ("", base)
  | some (scheme, rest) =>
    if scheme = [] then .error "parse error: missing protocol scheme"
    else if !(isAlphaCh (scheme.headD ' ') && scheme.all isSchemeCh) then
      .error "parse error: invalid URL scheme"
    else
      let (auth, path) := splitAuthority rest
      if auth.any (fun c => c = ' ') then
        .error "parse error: invalid character in host name"
      else
        .ok (String.mk (scheme ++ [':', '/', '/'] ++ auth), String.mk path)

/-- Split a string into its `/`-separated pieces. -/
def splitCharsOnSlash : List Char → List (List Char)
  | [] => [[]]
  | c :: cs =>
    let r := splitCharsOnSlash cs
    if c = '/' then [] :: r
    else
      match r with
      | [] => [[c]]
      | g :: gs => (c :: g) :: gs

def splitOnSlashes (s : String) : List String :=
  (splitCharsOnSlash s.toList).map String.mk

def startsWithSlash (s : String) : Bool :=
  match s.toList with
  | '/' :: _ => true
  | _ => false

def endsWithSlash (s : String) : Bool :=
  match s.toList.getLast? with
  | some '/' => true
  | _ => false

/-- Resolve `.`/`..`/empty segments as `path.Clean` does on an absolute
path (the accumulator holds the kept segments in reverse). -/
def cleanSegs (acc : List String) : List String → List String
  | [] => acc.reverse
  | "" :: rest => cleanSegs acc rest
  | "." :: rest => cleanSegs acc rest
  | ".." :: rest => cleanSegs (acc.drop 1) rest
  | seg :: rest => cleanSegs (seg :: acc) rest

/-- `path.Join` on an absolute path: split every part on `/`, clean, and
re-render with a leading slash. -/
def pathJoinAbs (parts : List String) : String :=
  "/" ++ String.intercalate "/" (cleanSegs [] (parts.map splitOnSlashes).flatten)

/-- Model of `url.JoinPath(base, elems...)`. -/
def joinPath (base : String) (elems : List String) : Except String String :=
  if containsCtl base then
    .error "parse error: net/url: invalid control character in URL"
  else
    match splitBaseURL base with
    | .error e => .error e
    | .ok (front, p0) =>
      let p0abs := if startsWithSlash p0 then p0 else "/" ++ p0
      let joined := pathJoinAbs (p0 :: elems)
      let lastElem := (elems.getLast?).getD p0abs
      let p :=
        if endsWithSlash lastElem && !endsWithSlash joined then joined ++ "/"
        else joined
      if front = "" && !startsWithSlash p0 then
        .ok (String.mk (p.toList.drop 1))
      else
        .ok (front ++ p)

/-! ### Request builder (models `newRequestOptions` / `newRequest`) -/

/-- `newRequestOptions` from the source: the mutable draft the option
functions act on. -/
structure NewRequestOptions where
  method : String
  baseURL : String
  path : String
  body : Option Json
  err : Option String

/-- `newRequestOptionFunc` from the source. Go mutates the draft in place;
the model passes the updated draft. -/
abbrev NewRequestOptionFunc := NewRequestOptions → NewRequestOptions

/-- `withPath` from the source: `o.Path, o.err = url.JoinPath(o.BaseURL, path...)`
assigns both results at once (empty path and an error on failure). -/
def withPath (segs : List String) : NewRequestOptionFunc := fun o =>
  match joinPath o.baseURL segs with
  | .ok p => { o with path := p, err := none }
  | .error e => { o with path := "", err := some e }

/-- `withBodyJSON` from the source, at the payload type the program uses.
The method is set to POST whether or not encoding succeeded, exactly as in
the source, and the body is attached only on success. -/
def withBodyJSON (payload : StartWorkflowRequest) : NewRequestOptionFunc := fun o =>
  match encodeStartWorkflowRequest payload with
  | .ok j => { o with body := some j, err := none, method := "POST" }
  | .error e => { o with err := some e, method := "POST" }

/-- The draft `newRequest` starts from: method GET, target and path equal to
the client's base URL, no body, no error. -/
def initOptions (base : String) : NewRequestOptions :=
  ⟨"GET", base, base, none, none⟩

/-- The loop of `newRequest`: apply each option in order, and return the
first error as soon as one appears, without running later options. -/
def runSteps : List NewRequestOptionFunc → NewRequestOptions → Except String NewRequestOptions
  | [], o => .ok o
  | f :: fs, o =>
    match (f o).err with
    | some e => .error e
    | none => runSteps fs (f o)

/-- The headers `newRequest` attaches after all options succeed. -/
def stdHeaders (token : String) : List (String × String) :=
  [("Accept", "application/json"), ("Content-Type", "application/json")] ++
    (if token = "" then [] else [("Authorization", "Bearer " ++ token)])

/-- A built HTTP request: method, target URL, optional JSON body (the tree
whose compact rendering Go streams), and headers. -/
structure HTTPRequest where
  method : String
  url : String
  body : Option Json
  headers : List (String × String)

/-- `newRequest` from the source. `http.NewRequestWithContext` itself is
modelled as always succeeding on the URLs in the modelled fragment. -/
def newRequest (c : Client) (opts : List NewRequestOptionFunc) : Except String HTTPRequest :=
  match runSteps opts (initOptions c.baseURL) with
  | .error e => .error e
  | .ok o => .ok ⟨o.method, o.path, o.body, stdHeaders c.apiToken⟩

/-- Header lookup (Go `Header.Set` keeps one value per name). -/
def headerGet (hs : List (String × String)) (k : String) : Option String :=
  match hs with
  | [] => none
  | (k2, v) :: rest => if k2 = k then some v else headerGet rest k

/-! ### Typed dispatcher (models `do`) -/

/-- A response body as the dispatcher sees it: its full content, and
optionally a read fault after `failAfter` characters (reads past that point
return an error, modelling a broken body stream). -/
structure BodyStream where
  content : String
  failAfter : Option Nat

/-- The characters obtainable from the body before end-of-stream or the
read fault. -/
def availableBytes (b : BodyStream) : String :=
  match b.failAfter with
  | none => b.content
  | some n => String.mk (b.content.toList.take n)

/-- Whether draining the body hits the read fault. -/
def readFails (b : BodyStream) : Bool := b.failAfter.isSome

/-- What the transport produced: a transport-level failure (no response),
or a response with a status code and a body. -/
inductive TransportResult where
  | failure (msg : String)
  | response (status : Nat) (body : BodyStream)

/-- `ClientError` from the source. -/
structure ClientError where
  code : Nat
  details : String
deriving Repr

/-- `Error` on `*ClientError` from the source: the display text is the raw
detail bytes, verbatim. -/
def ClientError.errorText (e : ClientError) : String := e.details

/-- The outcome of `do`: the decoded value, or one of the error kinds the
source can return (transport error, `*ClientError`, JSON decode error). -/
inductive DoResult (T : Type) where
  | ok (v : T)
  | transportError (msg : String)
  | remoteError (e : ClientError)
  | decodeError (msg : String)

/-- Resource bookkeeping for one dispatch: how many characters were read
off the body, and whether the body was closed before returning. -/
structure BodyAudit where
  consumed : Nat
  closed : Bool
deriving Repr

/-- `do` from the source (named `doDispatch` because `do` is reserved in
Lean), generic over the decode target exactly as `do[T any]` is. On a
transport failure the error propagates and there is no body to audit.
Otherwise `defer resp.Body.Close()` closes the body on every path; a status
of 400 or more reads the whole available body (`io.ReadAll`, read error
discarded) into a `ClientError`; otherwise the JSON decoder reads one value
off the stream and decodes it into the destination. -/
def doDispatch {T : Type} (dec : Json → Option T) (t : TransportResult) :
    DoResult T × Option BodyAudit :=
  match t with
  | .failure m => (.transportError m, none)
  | .response st b =>
    let avail := availableBytes b
    if 400 ≤ st then
      (.remoteError ⟨st, avail⟩, some ⟨avail.length, true⟩)
    else
      match parseOneValue avail with
      | some (j, n) =>
        match dec j with
        | some v => (.ok v, some ⟨n, true⟩)
        | none => (.decodeError "json: cannot unmarshal value", some ⟨n, true⟩)
      | none =>
        (.decodeError "json: decode failure", some ⟨avail.length, true⟩)

/-- A caller-visible call outcome (`(*Status, error)` in Go, with the error
kinds kept apart). -/
inductive CallResult where
  | ok (s : Status)
  | buildError (msg : String)
  | transportError (msg : String)
  | remoteError (e : ClientError)
  | decodeError (msg : String)

def toCallResult : DoResult Status → CallResult
  | .ok v => .ok v
  | .transportError m => .transportError m
  | .remoteError e => .remoteError e
  | .decodeError m => .decodeError m

/-- The injectable HTTP transport (`client(c).Do`). -/
abbrev Transport := HTTPRequest → TransportResult

/-! ### Operations (models `NewStartWorkflowRequest`, `StartWorkflow`,
`WorkflowStatus`) -/

/-- `NewStartWorkflowOptionsFunc` from the source (a mutation of the
request, modelled functionally). -/
abbrev NewStartWorkflowOptionsFunc := StartWorkflowRequest → StartWorkflowRequest

/-- `StartWithRequestID` from the source. -/
def StartWithRequestID (requestID : String) : NewStartWorkflowOptionsFunc :=
  fun r => { r with input := { r.input with requestID := requestID } }

/-- `NewStartWorkflowRequest` from the source: the defaults (raw-workflow
handler, both marker pointers allocated, the given workflow bytes), then
the options applied in order. -/
def NewStartWorkflowRequest (workflow : String)
    (opts : List NewStartWorkflowOptionsFunc) : StartWorkflowRequest :=
  opts.foldl (fun r f => f r)
    ⟨⟨"", HandlerRawWorkflow, true, true, workflow, none⟩⟩

/-- `StartWorkflow` from the source: build (path `payload`, JSON body),
then dispatch into a fresh `Status`. -/
def StartWorkflow (c : Client) (transport : Transport)
    (prompt : StartWorkflowRequest) : CallResult :=
  match newRequest c [withPath ["payload"], withBodyJSON prompt] with
  | .error e => .buildError e
  | .ok req => toCallResult (doDispatch decodeStatus (transport req)).1

/-- `WorkflowStatus` from the source: build (path `result/<id>`, default
method), then dispatch into a fresh `Status`. -/
def WorkflowStatus (c : Client) (transport : Transport) (id : String) : CallResult :=
  match newRequest c [withPath ["result", id]] with
  | .error e => .buildError e
  | .ok req => toCallResult (doDispatch decodeStatus (transport req)).1

/-! ### Auxiliary definitions used by the theorem statements -/

/-- The key list of the `extra_params` map of an optional webhook. -/
def webhookParams : Option Webhook → List (String × Json)
  | none => []
  | some w => w.params

/-- The decoded image of a `Webhook` value. -/
def webhookViewOf (w : Webhook) : WebhookView := ⟨w.url, w.params⟩

/-- The decoded image of a submit payload: the same components, with the
`json.RawMessage` workflow bytes abstracted by the JSON structure they
denote (which is what decoding the serialized body recovers). -/
def viewOf (r : StartWorkflowRequest) : StartWorkflowRequestView :=
  ⟨⟨r.input.requestID, r.input.handler, r.input.gcp, r.input.modifiers,
    (parseJson r.input.workflow).getD .null, r.input.webhook.map webhookViewOf⟩⟩

/-- A 600-character run of trailing data, longer than any amount
`json.Decoder` buffers past the first value. -/
def trailingJunk : String := String.mk (List.replicate 600 'X')

/-- The serialized body of `NewStartWorkflowRequest([]byte(empty object))`:
everything sits under the single top-level member `input`. -/
def c1CexBody : Json :=
  .obj [("input", .obj [("handler", .str "RawWorkflow"), ("gcp", .obj []),
    ("modifiers", .obj []), ("workflow_json", .obj [])])]

/-! ### Helper lemmas -/

/-- Running a concatenation of option lists runs the first list and, if no
step of it failed, continues with the second from the resulting draft. -/
theorem runSteps_append (xs ys : List NewRequestOptionFunc) (o : NewRequestOptions) :
    runSteps (xs ++ ys) o = (runSteps xs o).bind (fun o2 => runSteps ys o2) := by
  induction xs generalizing o with
  | nil => simp [runSteps, Except.bind]
  | cons f fs ih =>
    simp only [List.cons_append, runSteps]
    cases (f o).err with
    | some e => simp [Except.bind]
    | none => simp [ih]

/-- Adding a member whose key is absent from a map appends it. -/
theorem mapPut_of_notMem (acc : List (String × Json)) (p : String × Json)
    (h : ∀ q ∈ acc, q.1 ≠ p.1) : mapPut acc p = acc ++ [p] := by
  induction acc with
  | nil => rfl
  | cons q qs ih =>
    have hq : q.1 ≠ p.1 := h q (List.mem_cons_self q qs)
    simp only [mapPut, if_neg hq, List.cons_append]
    exact congrArg (q :: ·) (ih (fun q2 hq2 => h q2 (List.mem_cons_of_mem q hq2)))

/-- Rebuilding a map from members with pairwise-distinct keys reproduces the
member list. -/
theorem foldl_mapPut_eq (fields : List (String × Json)) :
    ∀ acc : List (String × Json), ((acc ++ fields).map Prod.fst).Nodup →
      fields.foldl mapPut acc = acc ++ fields := by
  induction fields with
  | nil => intro acc _; simp
  | cons p ps ih =>
    intro acc h
    have hkeys : ((acc.map Prod.fst) ++ (p.1 :: ps.map Prod.fst)).Nodup := by
      simpa using h
    have hdisj := (List.nodup_append.mp hkeys).2.2
    have hput : mapPut acc p = acc ++ [p] := by
      refine mapPut_of_notMem acc p (fun q hq heq => ?_)
      exact hdisj (List.mem_map_of_mem Prod.fst hq)
        (heq ▸ List.mem_cons_self p.1 (ps.map Prod.fst))
    have h2 : (((acc ++ [p]) ++ ps).map Prod.fst).Nodup := by
      rw [List.append_assoc]
      simpa using h
    calc (p :: ps).foldl mapPut acc = ps.foldl mapPut (mapPut acc p) := rfl
      _ = ps.foldl mapPut (acc ++ [p]) := by rw [hput]
      _ = (acc ++ [p]) ++ ps := ih (acc ++ [p]) h2
      _ = acc ++ (p :: ps) := by simp

/-! ### Claim theorems -/

/-- C2: for every response whose status code is at least 400 and whose body
reads without fault, the dispatcher returns no decoded value: it returns a
structured `ClientError` exposing the numeric status code and the raw body
bytes as details, and the error's display text is exactly the raw body. -/
theorem spec_c2_error_surface {T : Type} (dec : Json → Option T) (st : Nat)
    (b : BodyStream) (hst : 400 ≤ st) (hread : b.failAfter = none) :
    doDispatch dec (.response st b) =
      (.remoteError ⟨st, b.content⟩, some ⟨b.content.length, true⟩) ∧
    ClientError.errorText ⟨st, b.content⟩ = b.content := by
  refine ⟨?_, rfl⟩
  simp [doDispatch, availableBytes, hread, hst]

/-- C2 witness: the spec's own example, a simulated 404 whose body is the
JSON text `{"error":"not found"}`: the dispatcher produces a `ClientError`
with code 404 whose details and display text are exactly that body. -/
theorem spec_c2_error_surface_witness :
    doDispatch (T := Status) decodeStatus
        (.response 404 ⟨"\x7b\"error\":\"not found\"\x7d", none⟩) =
      (.remoteError ⟨404, "\x7b\"error\":\"not found\"\x7d"⟩,
        some ⟨("\x7b\"error\":\"not found\"\x7d" : String).length, true⟩) ∧
    ClientError.errorText ⟨404, "\x7b\"error\":\"not found\"\x7d"⟩ =
      "\x7b\"error\":\"not found\"\x7d" :=
  spec_c2_error_surface decodeStatus 404
    ⟨"\x7b\"error\":\"not found\"\x7d", none⟩ (by decide) rfl

/-- C3: builder steps run in the order supplied over the shared draft, and
the first step that records an error halts the run: no later step is
applied (the result does not depend on `post`), no request is built, and
the caller receives exactly that error. -/
theorem spec_c3_fail_fast (c : Client) (pre post : List NewRequestOptionFunc)
    (f : NewRequestOptionFunc) (o2 : NewRequestOptions) (e : String)
    (hpre : runSteps pre (initOptions c.baseURL) = .ok o2)
    (hf : (f o2).err = some e) :
    newRequest c (pre ++ f :: post) = .error e ∧
    runSteps (pre ++ f :: post) (initOptions c.baseURL) =
      (runSteps pre (initOptions c.baseURL)).bind
        (fun o3 => runSteps (f :: post) o3) := by
  have happ := runSteps_append pre (f :: post) (initOptions c.baseURL)
  refine ⟨?_, happ⟩
  rw [newRequest, happ, hpre]
  simp [Except.bind, runSteps, hf]

/-- C3 witness: with a base URL that has no scheme before `://`, a
`withPath` step fails (a URL-parse error), and a request build whose option
list continues with a further path step stops at that first error. -/
theorem spec_c3_fail_fast_witness :
    newRequest ⟨"://x", ""⟩
        ([] ++ withPath ["payload"] :: [withPath ["q"]]) =
      .error "parse error: missing protocol scheme" ∧
    runSteps ([] ++ withPath ["payload"] :: [withPath ["q"]])
        (initOptions ("://x" : String)) =
      (runSteps [] (initOptions ("://x" : String))).bind
        (fun o3 => runSteps (withPath ["payload"] :: [withPath ["q"]]) o3) :=
  spec_c3_fail_fast ⟨"://x", ""⟩ [] [withPath ["q"]] (withPath ["payload"])
    (initOptions "://x") "parse error: missing protocol scheme" rfl rfl

/-- C6: every successfully built request carries the headers
`Accept: application/json` and `Content-Type: application/json`
unconditionally, and carries `Authorization: Bearer <token>` exactly when a
token is configured on the client. -/
theorem spec_c6_standard_headers (c : Client) (opts : List NewRequestOptionFunc)
    (req : HTTPRequest) (h : newRequest c opts = .ok req) :
    headerGet req.headers "Accept" = some "application/json" ∧
    headerGet req.headers "Content-Type" = some "application/json" ∧
    (c.apiToken ≠ "" →
      headerGet req.headers "Authorization" = some ("Bearer " ++ c.apiToken)) ∧
    (c.apiToken = "" → headerGet req.headers "Authorization" = none) := by
  have hh : req.headers = stdHeaders c.apiToken := by
    rw [newRequest] at h
    cases hrs : runSteps opts (initOptions c.baseURL) with
    | error e => rw [hrs] at h; cases h
    | ok o => rw [hrs] at h; cases h; rfl
  rw [hh]
  by_cases ht : c.apiToken = "" <;> simp [stdHeaders, headerGet, ht]

/-- C6 witness: a client with a configured token builds a request with the
two JSON headers and the bearer header; the same request shape built with
no token carries no Authorization header (second application at token ""
via the iff-shaped conjuncts). -/
theorem spec_c6_standard_headers_witness :
    (headerGet (HTTPRequest.mk "GET" "http://h" none (stdHeaders "tok")).headers
        "Accept" = some "application/json" ∧
      headerGet (HTTPRequest.mk "GET" "http://h" none (stdHeaders "tok")).headers
        "Content-Type" = some "application/json" ∧
      (("tok" : String) ≠ "" →
        headerGet (HTTPRequest.mk "GET" "http://h" none (stdHeaders "tok")).headers
          "Authorization" = some ("Bearer " ++ "tok")) ∧
      (("tok" : String) = "" →
        headerGet (HTTPRequest.mk "GET" "http://h" none (stdHeaders "tok")).headers
          "Authorization" = none)) ∧
    (("" : String) = "" →
      headerGet (HTTPRequest.mk "GET" "http://h" none (stdHeaders "")).headers
        "Authorization" = none) :=
  ⟨spec_c6_standard_headers ⟨"http://h", "tok"⟩ [] _ rfl,
    (spec_c6_standard_headers ⟨"http://h", ""⟩ [] _ rfl).2.2.2⟩

/-- C9 (amended): when the body read fails on the error path, the failure
is silently tolerated — the dispatcher still returns the structured
`ClientError` — but the details are the bytes read before the failure,
which are empty only when the read fails at offset zero. -/
theorem spec_c9_fault_details {T : Type} (dec : Json → Option T) (st : Nat)
    (content : String) (n : Nat) (hst : 400 ≤ st) :
    doDispatch dec (.response st ⟨content, some n⟩) =
      (.remoteError ⟨st, String.mk (content.toList.take n)⟩,
        some ⟨(String.mk (content.toList.take n)).length, true⟩) ∧
    readFails ⟨content, some n⟩ = true := by
  refine ⟨?_, rfl⟩
  simp [doDispatch, availableBytes, hst]

/-- C9 witness: a 404 whose body stream yields three characters and then
faults still produces a `ClientError` carrying those three characters. -/
theorem spec_c9_fault_details_witness :
    doDispatch (T := Status) decodeStatus (.response 404 ⟨"abcdef", some 3⟩) =
      (.remoteError ⟨404, String.mk (("abcdef" : String).toList.take 3)⟩,
        some ⟨(String.mk (("abcdef" : String).toList.take 3)).length, true⟩) ∧
    readFails ⟨"abcdef", some 3⟩ = true :=
  spec_c9_fault_details decodeStatus 404 "abcdef" 3 (by decide)

/-- C9 counterexample: the claim says a failed body read yields empty
details; here the read of a 404 body fails after three characters and the
structured error carries `"abc"`, which is not empty. -/
theorem spec_c9_empty_details_cex :
    doDispatch (T := Status) decodeStatus (.response 404 ⟨"abcdef", some 3⟩) =
      (.remoteError ⟨404, "abc"⟩, some ⟨3, true⟩) ∧
    readFails ⟨"abcdef", some 3⟩ = true ∧ ("abc" : String) ≠ "" := by
  exact ⟨rfl, rfl, by decide⟩

/-- C4 (amended): for every dispatched request that receives a response,
the body is closed (released) before the dispatcher returns, on every path;
on the error path (status at least 400) all obtainable body bytes are also
read. On the success and decode paths only the first JSON value is
consumed, so the body need not be fully read (see the counterexample). -/
theorem spec_c4_body_release {T : Type} (dec : Json → Option T) (st : Nat)
    (b : BodyStream) :
    ∃ a : BodyAudit, (doDispatch dec (.response st b)).2 = some a ∧
      a.closed = true ∧ (400 ≤ st → a.consumed = (availableBytes b).length) := by
  rw [doDispatch]
  by_cases hst : 400 ≤ st
  · exact ⟨⟨(availableBytes b).length, true⟩, by simp [hst], rfl, fun _ => rfl⟩
  · simp only [if_neg hst]
    cases hp : parseOneValue (availableBytes b) with
    | none =>
      exact ⟨⟨(availableBytes b).length, true⟩, rfl, rfl, fun h => absurd h hst⟩
    | some jn =>
      obtain ⟨j, n⟩ := jn
      refine ⟨⟨n, true⟩, ?_, rfl, fun h => absurd h hst⟩
      cases hd : dec j <;> simp [hd]

/-- C4 witness: a 500 response with body `oops` is closed and its four
available characters are fully read. -/
theorem spec_c4_body_release_witness :
    ∃ a : BodyAudit,
      (doDispatch (T := Status) decodeStatus
        (.response 500 ⟨"oops", none⟩)).2 = some a ∧
      a.closed = true ∧
      (400 ≤ 500 → a.consumed = (availableBytes ⟨"oops", none⟩).length) :=
  spec_c4_body_release decodeStatus 500 ⟨"oops", none⟩

set_option maxRecDepth 40000 in
/-- C4 counterexample: the claim says the body is fully consumed on every
path. On the success path the JSON decoder stops after the first value: a
200 response whose body is an empty object followed by 600 trailing
characters decodes successfully with only 2 of its 602 characters
consumed, so the body is not fully consumed (it is still closed). -/
theorem spec_c4_full_consumption_cex :
    doDispatch (T := Status) decodeStatus
        (.response 200 ⟨"\x7b\x7d" ++ trailingJunk, none⟩) =
      (.ok zeroStatus, some ⟨2, true⟩) ∧
    ("\x7b\x7d" ++ trailingJunk).length = 602 ∧ (2 : Nat) ≠ 602 := by
  exact ⟨rfl, rfl, by decide⟩

/-- C7: submitting joins exactly the segment `payload` onto the base and
dispatches a POST whose JSON body is the encoded submission request;
fetching status joins `result` and the id onto the base and dispatches with
the default GET method and no body; both decode the response through the
same `Status` dispatcher. -/
theorem spec_c7_operations (c : Client) (transport : Transport)
    (prompt : StartWorkflowRequest) (id : String) (bj : Json) (u1 u2 : String)
    (henc : encodeStartWorkflowRequest prompt = .ok bj)
    (h1 : joinPath c.baseURL ["payload"] = .ok u1)
    (h2 : joinPath c.baseURL ["result", id] = .ok u2) :
    StartWorkflow c transport prompt =
      toCallResult (doDispatch decodeStatus
        (transport ⟨"POST", u1, some bj, stdHeaders c.apiToken⟩)).1 ∧
    WorkflowStatus c transport id =
      toCallResult (doDispatch decodeStatus
        (transport ⟨"GET", u2, none, stdHeaders c.apiToken⟩)).1 := by
  constructor
  · simp [StartWorkflow, newRequest, runSteps, withPath, withBodyJSON,
      initOptions, h1, henc]
  · simp [WorkflowStatus, newRequest, runSteps, withPath, initOptions, h2]

/-- C7 witness: against base `http://example.com/api`, submitting posts the
encoded body to `http://example.com/api/payload` and fetching status of
`abc` gets `http://example.com/api/result/abc`, both through the `Status`
dispatcher (here over a transport that always fails). -/
theorem spec_c7_operations_witness :
    StartWorkflow ⟨"http://example.com/api", ""⟩ (fun _ => .failure "down")
        (NewStartWorkflowRequest "\x7b\x7d" []) =
      toCallResult (doDispatch decodeStatus
        ((fun _ => TransportResult.failure "down")
          (⟨"POST", "http://example.com/api/payload", some c1CexBody,
            stdHeaders ""⟩ : HTTPRequest))).1 ∧
    WorkflowStatus ⟨"http://example.com/api", ""⟩ (fun _ => .failure "down")
        "abc" =
      toCallResult (doDispatch decodeStatus
        ((fun _ => TransportResult.failure "down")
          (⟨"GET", "http://example.com/api/result/abc", none,
            stdHeaders ""⟩ : HTTPRequest))).1 :=
  spec_c7_operations ⟨"http://example.com/api", ""⟩ (fun _ => .failure "down")
    (NewStartWorkflowRequest "\x7b\x7d" []) "abc" c1CexBody
    "http://example.com/api/payload" "http://example.com/api/result/abc"
    rfl rfl rfl

/-- C10: when the raw workflow bytes are not valid JSON, the encoder
rejects them while the request is being built: the submission returns the
serialization error for every transport whatsoever, so nothing is ever
dispatched. -/
theorem spec_c10_invalid_workflow (c : Client) (prompt : StartWorkflowRequest)
    (u : String) (hjoin : joinPath c.baseURL ["payload"] = .ok u)
    (hbad : parseJson prompt.input.workflow = none) :
    ∀ transport : Transport,
      StartWorkflow c transport prompt =
        .buildError "json: invalid workflow_json raw message" := by
  intro transport
  simp [StartWorkflow, newRequest, runSteps, withPath, withBodyJSON,
    initOptions, hjoin, encodeStartWorkflowRequest, encodeInput, hbad,
    Except.map]

/-- C10 witness: submitting a payload whose workflow bytes are the text
`not json` fails with the serialization error under an arbitrary concrete
transport. -/
theorem spec_c10_invalid_workflow_witness :
    StartWorkflow ⟨"http://example.com/api", ""⟩ (fun _ => .failure "down")
        (NewStartWorkflowRequest "not json" []) =
      .buildError "json: invalid workflow_json raw message" :=
  spec_c10_invalid_workflow ⟨"http://example.com/api", ""⟩
    (NewStartWorkflowRequest "not json" []) "http://example.com/api/payload"
    rfl rfl (fun _ => .failure "down")

/-- C1 counterexample: the claim puts `request_id`, `handler`, `gcp`,
`modifiers`, `workflow_json` and `webhook` at the top level of the
serialized body. In fact the body of a plain submission (workflow bytes an
empty object) is an object whose only top-level member is `input`; the
listed members sit one level down, inside it. -/
theorem spec_c1_top_level_cex :
    encodeStartWorkflowRequest (NewStartWorkflowRequest "\x7b\x7d" []) =
      .ok c1CexBody ∧
    topKeys c1CexBody = ["input"] ∧
    "handler" ∉ topKeys c1CexBody ∧ "workflow_json" ∉ topKeys c1CexBody :=
  ⟨rfl, rfl, by decide, by decide⟩

/-- C1 (amended): the serialized body is a JSON object with the single
top-level field `input`; the object under `input` has exactly the fields
`request_id` (present iff a request id is set), `handler` (always, the
handler string), `gcp` and `modifiers` (each present as an empty object iff
its marker pointer is set — `NewStartWorkflowRequest` sets both),
`workflow_json` (always, the embedded raw workflow JSON), and `webhook`
(present iff a webhook is set), in that order. -/
theorem spec_c1_body_shape (r : StartWorkflowRequest) (bj : Json)
    (h : encodeStartWorkflowRequest r = .ok bj) :
    ∃ fields wj,
      parseJson r.input.workflow = some wj ∧
      bj = .obj [("input", .obj fields)] ∧
      fields.map Prod.fst =
        (if r.input.requestID = "" then [] else ["request_id"]) ++
        ["handler"] ++
        (if r.input.gcp then ["gcp"] else []) ++
        (if r.input.modifiers then ["modifiers"] else []) ++
        ["workflow_json"] ++
        (match r.input.webhook with | none => [] | some _ => ["webhook"]) ∧
      memberLookup fields "handler" = some (.str r.input.handler) ∧
      memberLookup fields "workflow_json" = some wj ∧
      (r.input.gcp = true → memberLookup fields "gcp" = some (.obj [])) ∧
      (r.input.modifiers = true →
        memberLookup fields "modifiers" = some (.obj [])) ∧
      (r.input.requestID ≠ "" →
        memberLookup fields "request_id" = some (.str r.input.requestID)) ∧
      (∀ wh, r.input.webhook = some wh →
        memberLookup fields "webhook" = some (encodeWebhook wh)) := by
  obtain ⟨⟨rid, hdl, g, m, wf, wh⟩⟩ := r
  simp only [encodeStartWorkflowRequest, encodeInput] at h
  cases hpw : parseJson wf with
  | none => rw [hpw] at h; simp [Except.map] at h
  | some wj =>
    rw [hpw] at h
    simp only [Except.map, Except.ok.injEq] at h
    subst h
    refine ⟨_, wj, rfl, rfl, ?_, ?_, ?_, ?_, ?_, ?_, ?_⟩ <;>
      by_cases hrid : rid = "" <;> cases g <;> cases m <;> cases wh <;>
        simp [hrid, memberLookup]

/-- C1 (amended) witness: the body of a submission carrying a request id
and a webhook has the single top-level member `input`, under which all six
fields appear. -/
theorem spec_c1_body_shape_witness :
    ∃ fields wj,
      parseJson (NewStartWorkflowRequest "\x7b\x7d"
          [fun r => ⟨⟨"r1", r.input.handler, r.input.gcp, r.input.modifiers,
            r.input.workflow, some ⟨"http://cb", []⟩⟩⟩]).input.workflow = some wj ∧
      Json.obj [("input", .obj [("request_id", .str "r1"),
        ("handler", .str "RawWorkflow"), ("gcp", .obj []),
        ("modifiers", .obj []), ("workflow_json", .obj []),
        ("webhook", .obj [("url", .str "http://cb")])])] =
        .obj [("input", .obj fields)] ∧
      fields.map Prod.fst =
        (if (NewStartWorkflowRequest "\x7b\x7d"
            [fun r => ⟨⟨"r1", r.input.handler, r.input.gcp, r.input.modifiers,
              r.input.workflow, some ⟨"http://cb", []⟩⟩⟩]).input.requestID = ""
          then [] else ["request_id"]) ++
        ["handler"] ++
        (if (NewStartWorkflowRequest "\x7b\x7d"
            [fun r => ⟨⟨"r1", r.input.handler, r.input.gcp, r.input.modifiers,
              r.input.workflow, some ⟨"http://cb", []⟩⟩⟩]).input.gcp
          then ["gcp"] else []) ++
        (if (NewStartWorkflowRequest "\x7b\x7d"
            [fun r => ⟨⟨"r1", r.input.handler, r.input.gcp, r.input.modifiers,
              r.input.workflow, some ⟨"http://cb", []⟩⟩⟩]).input.modifiers
          then ["modifiers"] else []) ++
        ["workflow_json"] ++
        (match (NewStartWorkflowRequest "\x7b\x7d"
            [fun r => ⟨⟨"r1", r.input.handler, r.input.gcp, r.input.modifiers,
              r.input.workflow, some ⟨"http://cb", []⟩⟩⟩]).input.webhook with
          | none => [] | some _ => ["webhook"]) ∧
      memberLookup fields "handler" = some (.str (NewStartWorkflowRequest "\x7b\x7d"
        [fun r => ⟨⟨"r1", r.input.handler, r.input.gcp, r.input.modifiers,
          r.input.workflow, some ⟨"http://cb", []⟩⟩⟩]).input.handler) ∧
      memberLookup fields "workflow_json" = some wj ∧
      ((NewStartWorkflowRequest "\x7b\x7d"
          [fun r => ⟨⟨"r1", r.input.handler, r.input.gcp, r.input.modifiers,
            r.input.workflow, some ⟨"http://cb", []⟩⟩⟩]).input.gcp = true →
        memberLookup fields "gcp" = some (.obj [])) ∧
      ((NewStartWorkflowRequest "\x7b\x7d"
          [fun r => ⟨⟨"r1", r.input.handler, r.input.gcp, r.input.modifiers,
            r.input.workflow, some ⟨"http://cb", []⟩⟩⟩]).input.modifiers = true →
        memberLookup fields "modifiers" = some (.obj [])) ∧
      ((NewStartWorkflowRequest "\x7b\x7d"
          [fun r => ⟨⟨"r1", r.input.handler, r.input.gcp, r.input.modifiers,
            r.input.workflow, some ⟨"http://cb", []⟩⟩⟩]).input.requestID ≠ "" →
        memberLookup fields "request_id" = some (.str (NewStartWorkflowRequest "\x7b\x7d"
          [fun r => ⟨⟨"r1", r.input.handler, r.input.gcp, r.input.modifiers,
            r.input.workflow, some ⟨"http://cb", []⟩⟩⟩]).input.requestID)) ∧
      (∀ wh, (NewStartWorkflowRequest "\x7b\x7d"
          [fun r => ⟨⟨"r1", r.input.handler, r.input.gcp, r.input.modifiers,
            r.input.workflow, some ⟨"http://cb", []⟩⟩⟩]).input.webhook = some wh →
        memberLookup fields "webhook" = some (encodeWebhook wh)) :=
  spec_c1_body_shape (NewStartWorkflowRequest "\x7b\x7d"
    [fun r => ⟨⟨"r1", r.input.handler, r.input.gcp, r.input.modifiers,
      r.input.workflow, some ⟨"http://cb", []⟩⟩⟩]) _ rfl

/-- C8: a constructed submission defaults the handler to `RawWorkflow` with
both feature-toggle markers allocated, applies the option list after those
defaults, serializes without `request_id` when no request id was set, and
serializes with the identifier unchanged when `StartWithRequestID` set
one. -/
theorem spec_c8_submission_defaults (w rid : String)
    (opts : List NewStartWorkflowOptionsFunc) (wj : Json)
    (hw : parseJson w = some wj) (hrid : rid ≠ "") :
    (NewStartWorkflowRequest w []).input =
      ⟨"", HandlerRawWorkflow, true, true, w, none⟩ ∧
    NewStartWorkflowRequest w opts =
      opts.foldl (fun r f => f r) (NewStartWorkflowRequest w []) ∧
    encodeStartWorkflowRequest (NewStartWorkflowRequest w []) =
      .ok (.obj [("input", .obj [("handler", .str HandlerRawWorkflow),
        ("gcp", .obj []), ("modifiers", .obj []), ("workflow_json", wj)])]) ∧
    encodeStartWorkflowRequest
        (NewStartWorkflowRequest w [StartWithRequestID rid]) =
      .ok (.obj [("input", .obj [("request_id", .str rid),
        ("handler", .str HandlerRawWorkflow), ("gcp", .obj []),
        ("modifiers", .obj []), ("workflow_json", wj)])]) := by
  refine ⟨rfl, rfl, ?_, ?_⟩ <;>
    simp [NewStartWorkflowRequest, StartWithRequestID,
      encodeStartWorkflowRequest, encodeInput, hw, hrid, Except.map]

/-- C8 witness: constructing over the empty-object workflow without options
omits `request_id`; constructing with `StartWithRequestID "rid-1"` embeds
it unchanged. -/
theorem spec_c8_submission_defaults_witness :
    (NewStartWorkflowRequest "\x7b\x7d" []).input =
      ⟨"", HandlerRawWorkflow, true, true, "\x7b\x7d", none⟩ ∧
    NewStartWorkflowRequest "\x7b\x7d" [StartWithRequestID "rid-1"] =
      [StartWithRequestID "rid-1"].foldl (fun r f => f r)
        (NewStartWorkflowRequest "\x7b\x7d" []) ∧
    encodeStartWorkflowRequest (NewStartWorkflowRequest "\x7b\x7d" []) =
      .ok (.obj [("input", .obj [("handler", .str HandlerRawWorkflow),
        ("gcp", .obj []), ("modifiers", .obj []),
        ("workflow_json", .obj [])])]) ∧
    encodeStartWorkflowRequest
        (NewStartWorkflowRequest "\x7b\x7d" [StartWithRequestID "rid-1"]) =
      .ok (.obj [("input", .obj [("request_id", .str "rid-1"),
        ("handler", .str HandlerRawWorkflow), ("gcp", .obj []),
        ("modifiers", .obj []), ("workflow_json", .obj [])])]) :=
  spec_c8_submission_defaults "\x7b\x7d" "rid-1" [StartWithRequestID "rid-1"]
    (.obj []) rfl (by decide)

/-- C5: serialize-then-deserialize is the identity up to structural
equality. Decoding the serialized submission body recovers exactly the
original payload's components, with the raw workflow bytes compared by the
JSON structure they denote (`viewOf`). The webhook parameter map is a Go
map, whose model here is an association list; the sortedness and
distinct-key hypotheses say the list is one of the lists that faithfully
represent a map (Go serializes map keys in sorted order and maps cannot
repeat keys). -/
theorem spec_c5_round_trip (r : StartWorkflowRequest) (bj : Json)
    (henc : encodeStartWorkflowRequest r = .ok bj)
    (hsorted : sortByKey (webhookParams r.input.webhook) =
      webhookParams r.input.webhook)
    (hnodup : ((webhookParams r.input.webhook).map Prod.fst).Nodup) :
    decodeStartWorkflowRequest bj = some (viewOf r) := by
  obtain ⟨⟨rid, hdl, g, m, wf, wh⟩⟩ := r
  simp only [encodeStartWorkflowRequest, encodeInput] at henc
  cases hpw : parseJson wf with
  | none => rw [hpw] at henc; simp [Except.map] at henc
  | some wj =>
    rw [hpw] at henc
    simp only [Except.map, Except.ok.injEq] at henc
    subst henc
    rcases wh with _ | ⟨url, ps⟩
    · by_cases hrid : rid = "" <;> cases g <;> cases m <;>
        simp [hrid, decodeStartWorkflowRequest, decodeInput, decodeInputMember,
          zeroInputView, viewOf, webhookViewOf, hpw]
    · rcases ps with _ | ⟨p, ps2⟩
      · by_cases hrid : rid = "" <;> cases g <;> cases m <;>
          simp [hrid, encodeWebhook, decodeStartWorkflowRequest, decodeInput,
            decodeInputMember, decodeWebhookField, decodeParamsMap,
            zeroInputView, viewOf, webhookViewOf, hpw]
      · have hsort : sortByKey (p :: ps2) = p :: ps2 := by
          simpa [webhookParams] using hsorted
        have hfold : (p :: ps2).foldl mapPut [] = p :: ps2 := by
          simpa using foldl_mapPut_eq (p :: ps2) []
            (by simpa [webhookParams] using hnodup)
        by_cases hrid : rid = "" <;> cases g <;> cases m <;>
          simp [hrid, encodeWebhook, hsort, hfold, decodeStartWorkflowRequest,
            decodeInput, decodeInputMember, decodeWebhookField, decodeParamsMap,
            zeroInputView, viewOf, webhookViewOf, hpw]

/-- C5 witness: a payload with request id, webhook and a two-entry
parameter map round-trips to its decoded view. -/
theorem spec_c5_round_trip_witness :
    decodeStartWorkflowRequest
        (.obj [("input", .obj [("request_id", .str "r1"),
          ("handler", .str "RawWorkflow"), ("gcp", .obj []),
          ("modifiers", .obj []), ("workflow_json", .obj []),
          ("webhook", .obj [("url", .str "http://cb"),
            ("extra_params", .obj [("a", .num "1"), ("b", .bool true)])])])]) =
      some (viewOf (NewStartWorkflowRequest "\x7b\x7d"
        [fun r => ⟨⟨"r1", r.input.handler, r.input.gcp, r.input.modifiers,
          r.input.workflow,
          some ⟨"http://cb", [("a", .num "1"), ("b", .bool true)]⟩⟩⟩])) :=
  spec_c5_round_trip (NewStartWorkflowRequest "\x7b\x7d"
      [fun r => ⟨⟨"r1", r.input.handler, r.input.gcp, r.input.modifiers,
        r.input.workflow,
        some ⟨"http://cb", [("a", .num "1"), ("b", .bool true)]⟩⟩⟩])
    (.obj [("input", .obj [("request_id", .str "r1"),
      ("handler", .str "RawWorkflow"), ("gcp", .obj []),
      ("modifiers", .obj []), ("workflow_json", .obj []),
      ("webhook", .obj [("url", .str "http://cb"),
        ("extra_params", .obj [("a", .num "1"), ("b", .bool true)])])])])
    rfl rfl (by decide)

end ComfyUI
